import Mathlib

/-
  Verification of the Orphadata extraction and merge logic of the
  CNVPathwayAtlas cnv-data repository (scripts/update.py and
  scripts/update_datasets.py).

  The embedding models the Python dictionaries as functions
  String -> Option alpha, XML disorder elements as structures whose
  fields mirror exactly the ElementTree queries the scripts perform
  (findtext returns an Option String: none when the element is absent,
  some of the text, where an element with no text yields some ""), and
  the parser loops as folds over lists.
-/

set_option autoImplicit false

namespace CnvData

/-- Python dict with string keys: lookup returns none for an absent key. -/
abbrev Dict (α : Type) : Type := String → Option α

/-- The empty dictionary. -/
def Dict.empty {α : Type} : Dict α := fun _ => none

/-- Python dict assignment: overwrites the value at the key. -/
def Dict.insert {α : Type} (d : Dict α) (k : String) (v : α) : Dict α :=
  fun q => if q = k then some v else d q

/-- Python dict.get with a default value. -/
def Dict.get {α : Type} (d : Dict α) (k : String) (dflt : α) : α :=
  (d k).getD dflt

/-- A TextSection element as read by parse_definitions:
    the find result for the path TextSectionType/Name with lang="en"
    (outer none = element absent, inner Option = the text of the element),
    and findtext("Contents"). -/
structure TextSection where
  sectionTypeNameEn : Option (Option String)
  contents : Option String
deriving Repr, DecidableEq

/-- A SummaryInformation element: attrib.get("lang", "") gives the lang
    attribute when present, and the list of the TextSection children under
    TextSectionList. -/
structure SummaryInformation where
  lang : Option String
  textSections : List TextSection
deriving Repr, DecidableEq

/-- An HPODisorderAssociation element as read by parse_phenotypes. -/
structure HPODisorderAssociation where
  freqNameEn : Option String
  hpoTerm : Option String
  hpoId : Option String
deriving Repr, DecidableEq

/-- A Prevalence element as read by parse_prevalence. -/
structure Prevalence where
  valMoy : Option String
  className : Option String
  source : Option String
deriving Repr, DecidableEq

/-- An ExternalReference element as read by parse_omim. -/
structure ExternalReference where
  source : Option String
  reference : Option String
deriving Repr, DecidableEq

/-- A Disorder element of the Orphadata XML documents, restricted to the
    sub-structures the four parsers read.  The list-valued fields looked up
    via find (which can return None in Python) are Options of lists; the one
    looked up via findall over a path (SummaryInformationList/SummaryInformation)
    is a plain list, empty when the wrapper element is absent. -/
structure Disorder where
  orphaCode : Option String
  summaryInfos : List SummaryInformation
  hpoAssocList : Option (List HPODisorderAssociation)
  prevalenceList : Option (List Prevalence)
  externalRefList : Option (List ExternalReference)
deriving Repr, DecidableEq

/-- Python str.strip(): remove leading and trailing whitespace. -/
def pyStrip (s : String) : String :=
  String.mk (((s.data.dropWhile Char.isWhitespace).reverse.dropWhile Char.isWhitespace).reverse)

/-- The inner loop of parse_definitions over the TextSections of one
    SummaryInformation block: the first section whose English type name is
    "Definition" and whose Contents is truthy yields the stripped contents
    (the Python break); sections failing either test are passed over. -/
def scanTextSections : List TextSection → Option String
  | [] => none
  | ts :: rest =>
    if ts.sectionTypeNameEn = some (some "Definition") then
      if ts.contents.getD "" ≠ "" then some (pyStrip (ts.contents.getD ""))
      else scanTextSections rest
    else scanTextSections rest

/-- The outer loop of parse_definitions over the SummaryInformation blocks:
    only blocks with lang "en" are scanned; after a block is scanned the loop
    stops when the definition variable is non-empty, otherwise it continues
    with the next block; the final value of the definition variable is
    returned. -/
def extractDefinition : List SummaryInformation → String
  | [] => ""
  | si :: rest =>
    if si.lang.getD "" = "en" then
      match scanTextSections si.textSections with
      | some d => if d ≠ "" then d else extractDefinition rest
      | none => extractDefinition rest
    else extractDefinition rest

/-- One iteration of the disorder loop of parse_definitions: a disorder whose
    OrphaCode text is a member of the code set has its extracted definition
    assigned into the dict (overwriting any earlier entry). -/
def defsStep (orphacodes : List String) (data : Dict String) (d : Disorder) : Dict String :=
  match d.orphaCode with
  | none => data
  | some code =>
    if orphacodes.contains code then data.insert code (extractDefinition d.summaryInfos)
    else data

/-- parse_definitions of scripts/update.py (identical in
    scripts/update_datasets.py): scan all Disorder elements in document
    order and record the extracted definition of each retained disorder. -/
def parse_definitions (disorders : List Disorder) (orphacodes : List String) : Dict String :=
  disorders.foldl (defsStep orphacodes) Dict.empty

/-- One iteration of the association loop of parse_phenotypes: the
    association is appended (formatted as "term (id)") when its English
    frequency name equals the target and both term and id are truthy. -/
def phenoAppend (code target : String) (phenos : Dict (List String))
    (assoc : HPODisorderAssociation) : Dict (List String) :=
  if assoc.freqNameEn = some target then
    if assoc.hpoTerm.getD "" ≠ "" ∧ assoc.hpoId.getD "" ≠ "" then
      phenos.insert code
        (phenos.get code [] ++ [assoc.hpoTerm.getD "" ++ " (" ++ assoc.hpoId.getD "" ++ ")"])
    else phenos
  else phenos

/-- One iteration of the disorder loop of parse_phenotypes: disorders outside
    the code set, or with no HPODisorderAssociationList element, contribute
    nothing. -/
def phenosStep (orphacodes : List String) (target : String)
    (phenos : Dict (List String)) (d : Disorder) : Dict (List String) :=
  match d.orphaCode with
  | none => phenos
  | some code =>
    if orphacodes.contains code then
      match d.hpoAssocList with
      | none => phenos
      | some assocs => assocs.foldl (phenoAppend code target) phenos
    else phenos

/-- parse_phenotypes of scripts/update.py (identical in
    scripts/update_datasets.py); the target frequency defaults to
    "Very frequent (99-80%)" at the call sites. -/
def parse_phenotypes (disorders : List Disorder) (orphacodes : List String)
    (target : String) : Dict (List String) :=
  disorders.foldl (phenosStep orphacodes target) Dict.empty

/-- Scanner for the regex findall over the pattern of one-or-more digits
    immediately followed by the literal "[PMID]".  The first argument is the
    digit run accumulated so far (the candidate capture group); a run
    followed by the six tag characters is emitted and scanning resumes after
    the tag, exactly as the regex engine resumes after a match.  A position
    inside a digit run can only start a match when the full run does, so
    restarting with an empty run after a failed tag is faithful to the
    leftmost-match semantics of re.findall. -/
def pmidTagAt : List Char → Bool
  | 'P' :: 'M' :: 'I' :: 'D' :: ']' :: _ => true
  | _ => false

/-- The scan loop itself; the tag is the opening bracket already consumed
    plus the five characters recognized by pmidTagAt. -/
def pmidScanAux : List Char → List Char → List (List Char)
  | _, [] => []
  | run, c :: cs =>
    if c.isDigit then pmidScanAux (run ++ [c]) cs
    else if run ≠ [] ∧ c = '[' ∧ pmidTagAt cs then
      run :: pmidScanAux [] (cs.drop 5)
    else pmidScanAux [] cs
termination_by _ l => l.length
decreasing_by
  all_goals simp [List.length_drop]
  all_goals omega

/-- re.findall of the pattern digits followed by "[PMID]" over a string,
    returning the digit captures in order of occurrence. -/
def pmid_findall (s : String) : List String :=
  (pmidScanAux [] s.data).map fun l => String.mk l

/-- The descriptor built for one Prevalence element by parse_prevalence:
    the mean value, an optional parenthesized class name, and an optional
    parenthesized comma-joined PMID list. -/
def prevalenceDescriptor (p : Prevalence) : String :=
  let val := p.valMoy.getD ""
  let cls := p.className.getD ""
  let sourceText := p.source.getD ""
  let pmids := pmid_findall sourceText
  let s1 := if cls ≠ "" then val ++ " (" ++ cls ++ ")" else val
  if pmids ≠ [] then s1 ++ " (PMID:" ++ String.intercalate "," pmids ++ ")" else s1

/-- One iteration of the prevalence loop of parse_prevalence: every
    Prevalence element appends exactly one descriptor. -/
def prevAppend (code : String) (pd : Dict (List String)) (p : Prevalence) :
    Dict (List String) :=
  pd.insert code (pd.get code [] ++ [prevalenceDescriptor p])

/-- One iteration of the disorder loop of parse_prevalence. -/
def prevStep (orphacodes : List String) (pd : Dict (List String)) (d : Disorder) :
    Dict (List String) :=
  match d.orphaCode with
  | none => pd
  | some code =>
    if orphacodes.contains code then
      match d.prevalenceList with
      | none => pd
      | some prevs => prevs.foldl (prevAppend code) pd
    else pd

/-- parse_prevalence of scripts/update.py (identical in
    scripts/update_datasets.py). -/
def parse_prevalence (disorders : List Disorder) (orphacodes : List String) :
    Dict (List String) :=
  disorders.foldl (prevStep orphacodes) Dict.empty

/-- One iteration of the reference loop of parse_omim: a reference is kept
    when its source equals "OMIM" and its reference text is truthy. -/
def omimAppend (code : String) (om : Dict (List String)) (r : ExternalReference) :
    Dict (List String) :=
  if r.source = some "OMIM" ∧ r.reference.getD "" ≠ "" then
    om.insert code (om.get code [] ++ [r.reference.getD ""])
  else om

/-- One iteration of the disorder loop of parse_omim. -/
def omimStep (orphacodes : List String) (om : Dict (List String)) (d : Disorder) :
    Dict (List String) :=
  match d.orphaCode with
  | none => om
  | some code =>
    if orphacodes.contains code then
      match d.externalRefList with
      | none => om
      | some refs => refs.foldl (omimAppend code) om
    else om

/-- parse_omim of scripts/update.py (identical in
    scripts/update_datasets.py). -/
def parse_omim (disorders : List Disorder) (orphacodes : List String) :
    Dict (List String) :=
  disorders.foldl (omimStep orphacodes) Dict.empty

/-- The "; " join used by both mergers. -/
def joinSemicolon (xs : List String) : String :=
  String.intercalate "; " xs

/-- The field lists written by save_combined_tsv of scripts/update.py:
    the local variable line of each loop iteration, in iteration order. -/
def save_combined_tsv_lines (defs : Dict String) (phenos prevs omims : Dict (List String))
    (orphacodes : List String) : List (List String) :=
  orphacodes.map fun code =>
    [code, defs.get code "",
     joinSemicolon (phenos.get code []),
     joinSemicolon (prevs.get code []),
     joinSemicolon (omims.get code [])]

/-- One output row of save_combined_csv of scripts/update_datasets.py
    (the dict literal appended to rows). -/
structure MergedRow where
  orphaCode : String
  definition : String
  phenotypes : String
  prevalence : String
  omim : String
deriving Repr, DecidableEq

/-- The rows list built by save_combined_csv of scripts/update_datasets.py,
    in iteration order. -/
def save_combined_csv_rows (defs : Dict String) (phenos prevs omims : Dict (List String))
    (orphacodes : List String) : List MergedRow :=
  orphacodes.map fun code =>
    { orphaCode := code
      definition := defs.get code ""
      phenotypes := joinSemicolon (phenos.get code [])
      prevalence := joinSemicolon (prevs.get code [])
      omim := joinSemicolon (omims.get code []) }

/-- The keep-or-skip decision of the association loop of parse_phenotypes,
    as an Option-valued function: some descriptor when the association is
    appended, none when it is skipped. -/
def phenoKeep (target : String) (a : HPODisorderAssociation) : Option String :=
  if a.freqNameEn = some target ∧ a.hpoTerm.getD "" ≠ "" ∧ a.hpoId.getD "" ≠ "" then
    some (a.hpoTerm.getD "" ++ " (" ++ a.hpoId.getD "" ++ ")")
  else none

/-- The keep-or-skip decision of the reference loop of parse_omim. -/
def omimKeep (r : ExternalReference) : Option String :=
  if r.source = some "OMIM" ∧ r.reference.getD "" ≠ "" then
    some (r.reference.getD "")
  else none

/-- Per-disorder phenotype contribution (derived characterization of the
    inner loop of parse_phenotypes). -/
def disorderPhenotypes (target : String) (d : Disorder) : List String :=
  match d.hpoAssocList with
  | none => []
  | some assocs => assocs.filterMap (phenoKeep target)

/-- Per-disorder prevalence contribution. -/
def disorderPrevalence (d : Disorder) : List String :=
  match d.prevalenceList with
  | none => []
  | some prevs => prevs.map prevalenceDescriptor

/-- Per-disorder OMIM contribution. -/
def disorderOmim (d : Disorder) : List String :=
  match d.externalRefList with
  | none => []
  | some refs => refs.filterMap omimKeep

/-
  Concrete example inputs used by the witness and counterexample theorems.
-/

/-- An English summary block whose only text section is not a Definition. -/
def exBlockNoDef : SummaryInformation :=
  { lang := some "en"
    textSections := [{ sectionTypeNameEn := some (some "Prevalence"), contents := some "Rare." }] }

/-- An English summary block holding a Definition section with whitespace
    around its contents. -/
def exBlockDef2 : SummaryInformation :=
  { lang := some "en"
    textSections :=
      [{ sectionTypeNameEn := some (some "Definition"), contents := some " Second block definition. " }] }

/-- A further English summary block holding another Definition section. -/
def exBlockDef3 : SummaryInformation :=
  { lang := some "en"
    textSections :=
      [{ sectionTypeNameEn := some (some "Definition"), contents := some "Third block definition." }] }

/-- A disorder whose first English summary block holds no Definition section
    while the second one does. -/
def exTwoBlocksDisorder : Disorder :=
  { orphaCode := some "2", summaryInfos := [exBlockNoDef, exBlockDef2]
    hpoAssocList := none, prevalenceList := none, externalRefList := none }

/-- A disorder with every optional sub-structure absent. -/
def exMissing : Disorder :=
  { orphaCode := some "7", summaryInfos := []
    hpoAssocList := none, prevalenceList := none, externalRefList := none }

/-- Associations: one fully valid very-frequent one, one very-frequent with an
    empty HPO id, one with a different frequency. -/
def exAssocs : List HPODisorderAssociation :=
  [{ freqNameEn := some "Very frequent (99-80%)", hpoTerm := some "Seizure", hpoId := some "HP:0001250" },
   { freqNameEn := some "Very frequent (99-80%)", hpoTerm := some "Microcephaly", hpoId := some "" },
   { freqNameEn := some "Occasional (29-5%)", hpoTerm := some "Tall stature", hpoId := some "HP:0000098" }]

/-- A disorder carrying exAssocs. -/
def exPhenoDisorder : Disorder :=
  { orphaCode := some "5", summaryInfos := []
    hpoAssocList := some exAssocs, prevalenceList := none, externalRefList := none }

/-- External references mixing OMIM and ICD-10 sources, with one empty OMIM
    reference. -/
def exRefs : List ExternalReference :=
  [{ source := some "OMIM", reference := some "607596" },
   { source := some "ICD-10", reference := some "Q93.51" },
   { source := some "OMIM", reference := some "" },
   { source := some "OMIM", reference := some "123456" }]

/-- A disorder carrying exRefs. -/
def exOmimDisorder : Disorder :=
  { orphaCode := some "6", summaryInfos := []
    hpoAssocList := none, prevalenceList := none, externalRefList := some exRefs }

/-- Two prevalence entries whose mean value, class name and source are empty
    or missing. -/
def exPrevs : List Prevalence :=
  [{ valMoy := none, className := none, source := none },
   { valMoy := some "", className := some "", source := some "" }]

/-- A disorder carrying exPrevs. -/
def exPrevDisorder : Disorder :=
  { orphaCode := some "9", summaryInfos := []
    hpoAssocList := none, prevalenceList := some exPrevs, externalRefList := none }

/-- A prevalence entry whose source text carries two PMID citations. -/
def exPrevPmid : Prevalence :=
  { valMoy := some "1.5", className := some "Point prevalence"
    source := some "12345678[PMID], 87654321[PMID]" }

/-- First occurrence of the duplicated disorder: non-empty definition and one
    OMIM reference. -/
def exDup1 : Disorder :=
  { orphaCode := some "3"
    summaryInfos :=
      [{ lang := some "en"
         textSections :=
           [{ sectionTypeNameEn := some (some "Definition"), contents := some "First definition." }] }]
    hpoAssocList := some [{ freqNameEn := some "Very frequent (99-80%)",
                            hpoTerm := some "Seizure", hpoId := some "HP:0001250" }]
    prevalenceList := some [{ valMoy := some "1.0", className := none, source := none }]
    externalRefList := some [{ source := some "OMIM", reference := some "111111" }] }

/-- Second occurrence of the duplicated disorder: no summary blocks at all
    (its extracted definition is empty) and one OMIM reference. -/
def exDup2 : Disorder :=
  { orphaCode := some "3"
    summaryInfos := []
    hpoAssocList := some [{ freqNameEn := some "Very frequent (99-80%)",
                            hpoTerm := some "Hypotonia", hpoId := some "HP:0001252" }]
    prevalenceList := some [{ valMoy := some "2.0", className := none, source := none }]
    externalRefList := some [{ source := some "OMIM", reference := some "222222" }] }

/-- An unrelated disorder standing between the two duplicates. -/
def exOtherDisorder : Disorder :=
  { orphaCode := some "4", summaryInfos := []
    hpoAssocList := none, prevalenceList := none
    externalRefList := some [{ source := some "OMIM", reference := some "999999" }] }

/-- The code set of the end-to-end merger example of the specification. -/
def exCodeSet : List String := ["166024"]

/-- Empty definition map of the merger example. -/
def exDefsDict : Dict String := Dict.empty

/-- Phenotype map of the merger example. -/
def exPhenosDict : Dict (List String) := Dict.empty.insert "166024" ["Seizure (HP:0001250)"]

/-- Empty prevalence map of the merger example. -/
def exPrevsDict : Dict (List String) := Dict.empty

/-- OMIM map of the merger example. -/
def exOmimsDict : Dict (List String) := Dict.empty.insert "166024" ["607596"]

/-
  Basic lemmas about the dictionary model and the fold structure of the
  parsers.
-/

theorem dict_insert_self {α : Type} (d : Dict α) (k : String) (v : α) :
    (d.insert k v) k = some v := by
  simp [Dict.insert]

theorem dict_insert_ne {α : Type} (d : Dict α) (k q : String) (v : α) (h : q ≠ k) :
    (d.insert k v) q = d q := by
  simp [Dict.insert, h]

theorem dict_get_insert_self {α : Type} (d : Dict α) (k : String) (v : α) (x : α) :
    (d.insert k v).get k x = v := by
  simp [Dict.get, Dict.insert]

theorem dict_get_insert_ne {α : Type} (d : Dict α) (k q : String) (v : α) (x : α)
    (h : q ≠ k) : (d.insert k v).get q x = d.get q x := by
  simp [Dict.get, Dict.insert, h]

theorem dict_get_empty {α : Type} (k : String) (x : α) : (Dict.empty).get k x = x := rfl

/-- Fold frame lemma: a fold whose every step preserves an observation
    preserves it overall. -/
theorem foldl_read_eq {σ α β : Type} (read : σ → β) (step : σ → α → σ) :
    ∀ (l : List α) (s : σ), (∀ a ∈ l, ∀ s2, read (step s2 a) = read s2) →
      read (l.foldl step s) = read s := by
  intro l
  induction l with
  | nil => intro s _; rfl
  | cons a l ih =>
    intro s h
    rw [List.foldl_cons, ih (step s a) (fun b hb s2 => h b (List.mem_cons_of_mem a hb) s2),
      h a (List.mem_cons_self a l) s]

/-- Fold append lemma: a fold whose every step appends the kept value of its
    element at a fixed key computes the filterMap of the kept values. -/
theorem foldl_get_append {α : Type} (step : Dict (List String) → α → Dict (List String))
    (g : α → Option String) (code : String)
    (hstep : ∀ pd a, (step pd a).get code [] = pd.get code [] ++ (g a).toList) :
    ∀ (l : List α) (pd : Dict (List String)),
      (l.foldl step pd).get code [] = pd.get code [] ++ l.filterMap g := by
  intro l
  induction l with
  | nil => intro pd; simp
  | cons a l ih =>
    intro pd
    rw [List.foldl_cons, ih (step pd a), hstep]
    cases h : g a <;> simp [List.filterMap_cons, h]

theorem phenoAppend_get_self (code target : String) (ph : Dict (List String))
    (a : HPODisorderAssociation) :
    (phenoAppend code target ph a).get code [] =
      ph.get code [] ++ (phenoKeep target a).toList := by
  by_cases h1 : a.freqNameEn = some target
  · by_cases h2 : a.hpoTerm.getD "" ≠ "" ∧ a.hpoId.getD "" ≠ ""
    · simp [phenoAppend, phenoKeep, h1, h2, dict_get_insert_self]
    · simp [phenoAppend, phenoKeep, h1, h2]
  · simp [phenoAppend, phenoKeep, h1]

theorem phenoAppend_get_ne (code target q : String) (ph : Dict (List String))
    (a : HPODisorderAssociation) (h : q ≠ code) :
    (phenoAppend code target ph a).get q [] = ph.get q [] := by
  unfold phenoAppend
  split
  · split
    · rw [dict_get_insert_ne _ _ _ _ _ h]
    · rfl
  · rfl

theorem prevAppend_get_self (code : String) (pd : Dict (List String)) (p : Prevalence) :
    (prevAppend code pd p).get code [] =
      pd.get code [] ++ (some (prevalenceDescriptor p)).toList := by
  simp [prevAppend, dict_get_insert_self]

theorem prevAppend_get_ne (code q : String) (pd : Dict (List String)) (p : Prevalence)
    (h : q ≠ code) : (prevAppend code pd p).get q [] = pd.get q [] := by
  unfold prevAppend
  rw [dict_get_insert_ne _ _ _ _ _ h]

theorem omimAppend_get_self (code : String) (om : Dict (List String))
    (r : ExternalReference) :
    (omimAppend code om r).get code [] = om.get code [] ++ (omimKeep r).toList := by
  by_cases h : r.source = some "OMIM" ∧ r.reference.getD "" ≠ ""
  · simp [omimAppend, omimKeep, h, dict_get_insert_self]
  · simp [omimAppend, omimKeep, h]

theorem omimAppend_get_ne (code q : String) (om : Dict (List String))
    (r : ExternalReference) (h : q ≠ code) :
    (omimAppend code om r).get q [] = om.get q [] := by
  unfold omimAppend
  split
  · rw [dict_get_insert_ne _ _ _ _ _ h]
  · rfl

/-
  Step lemmas: what one iteration of each disorder loop does to the entry of
  a given code.
-/

theorem defsStep_code (C : List String) (data : Dict String) (d : Disorder) (code : String)
    (h1 : d.orphaCode = some code) (h2 : C.contains code = true) :
    (defsStep C data d) code = some (extractDefinition d.summaryInfos) := by
  simp only [defsStep, h1, h2, if_true]
  exact dict_insert_self data code _

theorem defsStep_ne (C : List String) (data : Dict String) (d : Disorder) (code : String)
    (h : d.orphaCode ≠ some code) : (defsStep C data d) code = data code := by
  cases hc : d.orphaCode with
  | none => simp [defsStep, hc]
  | some c =>
    have hne : code ≠ c := by
      intro e
      exact h (by rw [hc, e])
    simp only [defsStep, hc]
    split
    · rw [dict_insert_ne _ _ _ _ hne]
    · rfl

theorem phenosStep_get_code (C : List String) (target : String) (ph : Dict (List String))
    (d : Disorder) (code : String)
    (h1 : d.orphaCode = some code) (h2 : C.contains code = true) :
    (phenosStep C target ph d).get code [] =
      ph.get code [] ++ disorderPhenotypes target d := by
  simp only [phenosStep, h1, h2, if_true]
  cases hl : d.hpoAssocList with
  | none => simp [disorderPhenotypes, hl]
  | some assocs =>
    rw [foldl_get_append (phenoAppend code target) (phenoKeep target) code
      (fun pd a => phenoAppend_get_self code target pd a) assocs ph]
    simp [disorderPhenotypes, hl]

theorem phenosStep_get_ne (C : List String) (target : String) (ph : Dict (List String))
    (d : Disorder) (code : String) (h : d.orphaCode ≠ some code) :
    (phenosStep C target ph d).get code [] = ph.get code [] := by
  cases hc : d.orphaCode with
  | none => simp [phenosStep, hc]
  | some c =>
    have hne : code ≠ c := by
      intro e
      exact h (by rw [hc, e])
    simp only [phenosStep, hc]
    split
    · cases hl : d.hpoAssocList with
      | none => rfl
      | some assocs =>
        simp only [hl]
        exact foldl_read_eq (fun pd => pd.get code []) (phenoAppend c target) assocs ph
          (fun a _ pd => phenoAppend_get_ne c target code pd a hne)
    · rfl

theorem phenosStep_noList (C : List String) (target : String) (ph : Dict (List String))
    (d : Disorder) (h : d.hpoAssocList = none) : phenosStep C target ph d = ph := by
  cases hc : d.orphaCode with
  | none => simp [phenosStep, hc]
  | some c =>
    simp only [phenosStep, hc, h]
    split <;> rfl

theorem prevStep_get_code (C : List String) (pd : Dict (List String))
    (d : Disorder) (code : String)
    (h1 : d.orphaCode = some code) (h2 : C.contains code = true) :
    (prevStep C pd d).get code [] = pd.get code [] ++ disorderPrevalence d := by
  simp only [prevStep, h1, h2, if_true]
  cases hl : d.prevalenceList with
  | none => simp [disorderPrevalence, hl]
  | some prevs =>
    rw [foldl_get_append (prevAppend code) (fun p => some (prevalenceDescriptor p)) code
      (fun x p => prevAppend_get_self code x p) prevs pd]
    rw [show (fun p => some (prevalenceDescriptor p)) = some ∘ prevalenceDescriptor from rfl,
      List.filterMap_eq_map]
    simp [disorderPrevalence, hl]

theorem prevStep_get_ne (C : List String) (pd : Dict (List String))
    (d : Disorder) (code : String) (h : d.orphaCode ≠ some code) :
    (prevStep C pd d).get code [] = pd.get code [] := by
  cases hc : d.orphaCode with
  | none => simp [prevStep, hc]
  | some c =>
    have hne : code ≠ c := by
      intro e
      exact h (by rw [hc, e])
    simp only [prevStep, hc]
    split
    · cases hl : d.prevalenceList with
      | none => rfl
      | some prevs =>
        simp only [hl]
        exact foldl_read_eq (fun x => x.get code []) (prevAppend c) prevs pd
          (fun p _ x => prevAppend_get_ne c code x p hne)
    · rfl

theorem prevStep_noList (C : List String) (pd : Dict (List String))
    (d : Disorder) (h : d.prevalenceList = none) : prevStep C pd d = pd := by
  cases hc : d.orphaCode with
  | none => simp [prevStep, hc]
  | some c =>
    simp only [prevStep, hc, h]
    split <;> rfl

theorem omimStep_get_code (C : List String) (om : Dict (List String))
    (d : Disorder) (code : String)
    (h1 : d.orphaCode = some code) (h2 : C.contains code = true) :
    (omimStep C om d).get code [] = om.get code [] ++ disorderOmim d := by
  simp only [omimStep, h1, h2, if_true]
  cases hl : d.externalRefList with
  | none => simp [disorderOmim, hl]
  | some refs =>
    rw [foldl_get_append (omimAppend code) omimKeep code
      (fun x r => omimAppend_get_self code x r) refs om]
    simp [disorderOmim, hl]

theorem omimStep_get_ne (C : List String) (om : Dict (List String))
    (d : Disorder) (code : String) (h : d.orphaCode ≠ some code) :
    (omimStep C om d).get code [] = om.get code [] := by
  cases hc : d.orphaCode with
  | none => simp [omimStep, hc]
  | some c =>
    have hne : code ≠ c := by
      intro e
      exact h (by rw [hc, e])
    simp only [omimStep, hc]
    split
    · cases hl : d.externalRefList with
      | none => rfl
      | some refs =>
        simp only [hl]
        exact foldl_read_eq (fun x => x.get code []) (omimAppend c) refs om
          (fun r _ x => omimAppend_get_ne c code x r hne)
    · rfl

theorem omimStep_noList (C : List String) (om : Dict (List String))
    (d : Disorder) (h : d.externalRefList = none) : omimStep C om d = om := by
  cases hc : d.orphaCode with
  | none => simp [omimStep, hc]
  | some c =>
    simp only [omimStep, hc, h]
    split <;> rfl

/-- A block none of whose text sections is a Definition section with truthy
    contents yields no definition. -/
theorem scanTextSections_eq_none (l : List TextSection)
    (h : ∀ ts ∈ l, ¬(ts.sectionTypeNameEn = some (some "Definition") ∧ ts.contents.getD "" ≠ "")) :
    scanTextSections l = none := by
  induction l with
  | nil => rfl
  | cons ts rest ih =>
    have hts := h ts (List.mem_cons_self ts rest)
    by_cases h1 : ts.sectionTypeNameEn = some (some "Definition")
    · have h2 : ¬ ts.contents.getD "" ≠ "" := fun hc => hts ⟨h1, hc⟩
      simp only [scanTextSections, h1, if_true, h2, if_false]
      exact ih (fun x hx => h x (List.mem_cons_of_mem ts hx))
    · simp only [scanTextSections, h1, if_false]
      exact ih (fun x hx => h x (List.mem_cons_of_mem ts hx))

/-- getD through map, for indices in range. -/
theorem getD_map_of_lt {α β : Type} (f : α → β) (l : List α) (i : Nat)
    (h : i < l.length) (d0 : α) (d1 : β) :
    (l.map f).getD i d1 = f (l.getD i d0) := by
  induction l generalizing i with
  | nil => simp at h
  | cons a l ih =>
    cases i with
    | zero => simp [List.getD_cons_zero]
    | succ n =>
      simp only [List.map_cons, List.getD_cons_succ]
      exact ih n (by simpa using h)

/-
  Claim theorems.
-/

/-- C8: for every code set and every four input maps, the row construction of
    save_combined_tsv (update.py) and the row construction of
    save_combined_csv (update_datasets.py) compute identical sequences of
    per-code field values (code, definition, joined phenotypes, joined
    prevalence, joined omim). -/
theorem tsv_csv_mergers_agree (defs : Dict String) (phenos prevs omims : Dict (List String))
    (C : List String) :
    (save_combined_csv_rows defs phenos prevs omims C).map
        (fun r => [r.orphaCode, r.definition, r.phenotypes, r.prevalence, r.omim])
      = save_combined_tsv_lines defs phenos prevs omims C := by
  simp [save_combined_csv_rows, save_combined_tsv_lines, List.map_map]

/-- C7: a disorder lacking an expected sub-structure (no HPO association
    list, no prevalence list, or no external-reference list) contributes zero
    entries to the corresponding feed, the extraction being a total function
    and the result over the remaining disorders unchanged. -/
theorem missing_substructure_contributes_nothing
    (pre ds : List Disorder) (d : Disorder) (C : List String) (target : String) :
    (d.hpoAssocList = none →
      parse_phenotypes (pre ++ d :: ds) C target = parse_phenotypes (pre ++ ds) C target)
    ∧ (d.prevalenceList = none →
      parse_prevalence (pre ++ d :: ds) C = parse_prevalence (pre ++ ds) C)
    ∧ (d.externalRefList = none →
      parse_omim (pre ++ d :: ds) C = parse_omim (pre ++ ds) C) := by
  refine ⟨fun h => ?_, fun h => ?_, fun h => ?_⟩
  · unfold parse_phenotypes
    rw [List.foldl_append, List.foldl_append, List.foldl_cons,
      phenosStep_noList C target _ d h]
  · unfold parse_prevalence
    rw [List.foldl_append, List.foldl_append, List.foldl_cons,
      prevStep_noList C _ d h]
  · unfold parse_omim
    rw [List.foldl_append, List.foldl_append, List.foldl_cons,
      omimStep_noList C _ d h]

/-- Witness for C7 at a concrete disorder with all three sub-structures
    absent. -/
theorem missing_substructure_contributes_nothing_witness :
    parse_phenotypes ([] ++ exMissing :: []) ["7"] "Very frequent (99-80%)"
        = parse_phenotypes ([] ++ []) ["7"] "Very frequent (99-80%)"
    ∧ parse_prevalence ([] ++ exMissing :: []) ["7"] = parse_prevalence ([] ++ []) ["7"]
    ∧ parse_omim ([] ++ exMissing :: []) ["7"] = parse_omim ([] ++ []) ["7"] := by
  obtain ⟨h1, h2, h3⟩ :=
    missing_substructure_contributes_nothing [] [] exMissing ["7"] "Very frequent (99-80%)"
  exact ⟨h1 rfl, h2 rfl, h3 rfl⟩

/-- C5: for a retained disorder, the phenotype extractor keeps an association
    exactly when its English frequency name equals the target string and both
    the HPO term and the HPO id are non-empty; an association with an empty
    HPO id is mapped to none by the keep function and so excluded. -/
theorem phenotype_assoc_filter (d : Disorder) (code : String)
    (assocs : List HPODisorderAssociation) (C : List String) (target : String)
    (h1 : d.orphaCode = some code) (h2 : C.contains code = true)
    (h3 : d.hpoAssocList = some assocs) :
    ((parse_phenotypes [d] C target).get code []
      = assocs.filterMap fun a =>
          if a.freqNameEn = some target ∧ a.hpoTerm.getD "" ≠ "" ∧ a.hpoId.getD "" ≠ "" then
            some (a.hpoTerm.getD "" ++ " (" ++ a.hpoId.getD "" ++ ")")
          else none)
    ∧ ∀ a : HPODisorderAssociation, a.hpoId.getD "" = "" → phenoKeep target a = none := by
  constructor
  · unfold parse_phenotypes
    rw [List.foldl_cons, List.foldl_nil,
      phenosStep_get_code C target Dict.empty d code h1 h2,
      dict_get_empty, List.nil_append]
    show disorderPhenotypes target d = assocs.filterMap (phenoKeep target)
    simp [disorderPhenotypes, h3]
  · intro a ha
    simp [phenoKeep, ha]

/-- Witness for C5: of the three concrete associations only the fully valid
    very-frequent one survives; the one with an empty HPO id is dropped. -/
theorem phenotype_assoc_filter_witness :
    (parse_phenotypes [exPhenoDisorder] ["5"] "Very frequent (99-80%)").get "5" []
      = ["Seizure (HP:0001250)"] := by
  rw [(phenotype_assoc_filter exPhenoDisorder "5" exAssocs ["5"] "Very frequent (99-80%)"
    rfl (by decide) rfl).1]
  decide

/-- C6: for a retained disorder, the OMIM extractor returns exactly the
    reference ids of the external references whose source equals the literal
    "OMIM" and whose reference text is non-empty, in document order. -/
theorem omim_reference_filter (d : Disorder) (code : String)
    (refs : List ExternalReference) (C : List String)
    (h1 : d.orphaCode = some code) (h2 : C.contains code = true)
    (h3 : d.externalRefList = some refs) :
    (parse_omim [d] C).get code []
      = refs.filterMap fun r =>
          if r.source = some "OMIM" ∧ r.reference.getD "" ≠ "" then
            some (r.reference.getD "")
          else none := by
  unfold parse_omim
  rw [List.foldl_cons, List.foldl_nil, omimStep_get_code C Dict.empty d code h1 h2,
    dict_get_empty, List.nil_append]
  show disorderOmim d = refs.filterMap omimKeep
  simp [disorderOmim, h3]

/-- Witness for C6: only the two non-empty OMIM references survive out of a
    list mixing OMIM and ICD-10 sources, in order. -/
theorem omim_reference_filter_witness :
    (parse_omim [exOmimDisorder] ["6"]).get "6" [] = ["607596", "123456"] := by
  rw [omim_reference_filter exOmimDisorder "6" exRefs ["6"] rfl (by decide) rfl]
  decide

/-- C10: for a retained disorder, the prevalence extractor appends exactly
    one descriptor per Prevalence element; a prevalence whose mean value,
    class name and source text are all empty or missing yields the empty
    descriptor, and joining two empty items produces the bare separator. -/
theorem prevalence_descriptor_per_entry (d : Disorder) (code : String)
    (prevs : List Prevalence) (C : List String)
    (h1 : d.orphaCode = some code) (h2 : C.contains code = true)
    (h3 : d.prevalenceList = some prevs) :
    ((parse_prevalence [d] C).get code [] = prevs.map prevalenceDescriptor)
    ∧ (∀ p : Prevalence, p.valMoy.getD "" = "" → p.className.getD "" = "" →
        p.source.getD "" = "" → prevalenceDescriptor p = "")
    ∧ joinSemicolon ["", ""] = "; " := by
  refine ⟨?_, ?_, by decide⟩
  · unfold parse_prevalence
    rw [List.foldl_cons, List.foldl_nil, prevStep_get_code C Dict.empty d code h1 h2]
    simp [disorderPrevalence, h3, dict_get_empty]
  · intro p hv hc hs
    simp only [prevalenceDescriptor, hv, hc, hs]
    simp [pmid_findall, pmidScanAux]

/-- Witness for C10: both empty prevalence entries of the concrete disorder
    produce an empty descriptor each. -/
theorem prevalence_descriptor_per_entry_witness :
    (parse_prevalence [exPrevDisorder] ["9"]).get "9" [] = ["", ""] := by
  rw [(prevalence_descriptor_per_entry exPrevDisorder "9" exPrevs ["9"]
    rfl (by decide) rfl).1]
  simp [exPrevs, prevalenceDescriptor, pmid_findall, pmidScanAux]

/-- C2 counterexample: a disorder whose first English summary block holds no
    Definition section still receives the definition of its second English
    block, not the empty string the claim predicts. -/
theorem definition_not_limited_to_first_english_block :
    parse_definitions [exTwoBlocksDisorder] ["2"] "2" = some "Second block definition."
    ∧ parse_definitions [exTwoBlocksDisorder] ["2"] "2" ≠ some "" := by
  constructor
  · decide
  · decide

/-- C2 amended: the definition extractor scans all English summary blocks in
    document order, each block yielding the stripped Contents of its first
    Definition-typed section with truthy Contents, and returns the first
    non-empty such value, or the empty string when there is none. -/
theorem definition_first_nonempty_english_block (sis : List SummaryInformation) :
    extractDefinition sis =
      ((((sis.filter fun si => si.lang.getD "" = "en").filterMap
          fun si => scanTextSections si.textSections).filter fun s => s ≠ "").headD "") := by
  induction sis with
  | nil => rfl
  | cons si rest ih =>
    by_cases hl : si.lang.getD "" = "en"
    · cases hs : scanTextSections si.textSections with
      | none => simp [extractDefinition, hl, hs, ih]
      | some d =>
        by_cases hd : d = ""
        · simp [extractDefinition, hl, hs, hd, ih]
        · simp [extractDefinition, hl, hs, hd]
    · simp [extractDefinition, hl, ih]

/-- C3: when the first English block has no Definition section with truthy
    contents and the second English block yields the non-empty definition d,
    the extractor returns d and scanning stops there, whatever blocks
    follow. -/
theorem definition_second_english_block_wins
    (b1 b2 : SummaryInformation) (rest : List SummaryInformation) (d : String)
    (h1 : b1.lang.getD "" = "en") (h2 : b2.lang.getD "" = "en")
    (h3 : ∀ ts ∈ b1.textSections,
      ¬(ts.sectionTypeNameEn = some (some "Definition") ∧ ts.contents.getD "" ≠ ""))
    (h4 : scanTextSections b2.textSections = some d) (h5 : d ≠ "") :
    extractDefinition (b1 :: b2 :: rest) = d := by
  have hb1 := scanTextSections_eq_none b1.textSections h3
  simp [extractDefinition, h1, h2, hb1, h4, h5]

/-- Witness for C3: the second English block provides the (stripped)
    definition, and the third block carrying another definition is never
    reached. -/
theorem definition_second_english_block_wins_witness :
    extractDefinition (exBlockNoDef :: exBlockDef2 :: [exBlockDef3])
      = "Second block definition." := by
  exact definition_second_english_block_wins exBlockNoDef exBlockDef2 [exBlockDef3]
    "Second block definition." rfl rfl (by decide) (by decide) (by decide)

/-- C4: a prevalence entry whose source text is the concrete double-PMID
    citation gets the comma-joined PMID suffix appended to its descriptor,
    the PMIDs being the findall captures in order of occurrence. -/
theorem prevalence_pmid_suffix (p : Prevalence)
    (h : p.source = some "12345678[PMID], 87654321[PMID]") :
    pmid_findall "12345678[PMID], 87654321[PMID]" = ["12345678", "87654321"]
    ∧ prevalenceDescriptor p =
        prevalenceDescriptor { valMoy := p.valMoy, className := p.className, source := none }
          ++ " (PMID:12345678,87654321)" := by
  have hp : pmid_findall "12345678[PMID], 87654321[PMID]" = ["12345678", "87654321"] := by
    simp [pmid_findall, pmidScanAux, pmidTagAt]
  refine ⟨hp, ?_⟩
  have hbase : pmid_findall "" = [] := by
    simp [pmid_findall, pmidScanAux]
  have hj : String.intercalate "," ["12345678", "87654321"] = "12345678,87654321" := by
    decide
  simp only [prevalenceDescriptor, h, Option.getD_some, Option.getD_none, hp, hbase, hj]
  simp [String.append_assoc]

/-- Witness for C4 at a concrete prevalence entry with mean value and class
    name present. -/
theorem prevalence_pmid_suffix_witness :
    prevalenceDescriptor exPrevPmid = "1.5 (Point prevalence) (PMID:12345678,87654321)" := by
  rw [(prevalence_pmid_suffix exPrevPmid rfl).2]
  have hbase : prevalenceDescriptor
      { valMoy := exPrevPmid.valMoy, className := exPrevPmid.className, source := none }
      = "1.5 (Point prevalence)" := by
    simp [prevalenceDescriptor, exPrevPmid, pmid_findall, pmidScanAux]
  rw [hbase]
  decide

/-- C9: in a document whose only two disorders carrying the retained code are
    d1 then d2, parse_definitions maps the code to the definition of the
    later occurrence d2 (dict overwrite, even when that definition is empty),
    while the phenotype, prevalence and OMIM extractors concatenate the
    contributions of both occurrences in document order. -/
theorem duplicate_code_merge_semantics
    (pre mid post : List Disorder) (d1 d2 : Disorder) (code : String)
    (C : List String) (target : String)
    (h1 : d1.orphaCode = some code) (h2 : d2.orphaCode = some code)
    (hC : C.contains code = true)
    (hother : ∀ d ∈ pre ++ mid ++ post, d.orphaCode ≠ some code) :
    ((parse_definitions (pre ++ d1 :: (mid ++ d2 :: post)) C) code
        = some (extractDefinition d2.summaryInfos))
    ∧ ((parse_phenotypes (pre ++ d1 :: (mid ++ d2 :: post)) C target).get code []
        = disorderPhenotypes target d1 ++ disorderPhenotypes target d2)
    ∧ ((parse_prevalence (pre ++ d1 :: (mid ++ d2 :: post)) C).get code []
        = disorderPrevalence d1 ++ disorderPrevalence d2)
    ∧ ((parse_omim (pre ++ d1 :: (mid ++ d2 :: post)) C).get code []
        = disorderOmim d1 ++ disorderOmim d2) := by
  have hpre : ∀ d ∈ pre, d.orphaCode ≠ some code :=
    fun d hd => hother d (by simp [hd])
  have hmid : ∀ d ∈ mid, d.orphaCode ≠ some code :=
    fun d hd => hother d (by simp [hd])
  have hpost : ∀ d ∈ post, d.orphaCode ≠ some code :=
    fun d hd => hother d (by simp [hd])
  refine ⟨?_, ?_, ?_, ?_⟩
  · unfold parse_definitions
    rw [List.foldl_append, List.foldl_cons, List.foldl_append, List.foldl_cons]
    have frame_post : ∀ s : Dict String,
        (List.foldl (defsStep C) s post) code = s code :=
      fun s => foldl_read_eq (fun data => data code) (defsStep C) post s
        (fun d hd s2 => defsStep_ne C s2 d code (hpost d hd))
    rw [frame_post, defsStep_code C _ d2 code h2 hC]
  · unfold parse_phenotypes
    rw [List.foldl_append, List.foldl_cons, List.foldl_append, List.foldl_cons]
    have frame_post : ∀ s : Dict (List String),
        (List.foldl (phenosStep C target) s post).get code [] = s.get code [] :=
      fun s => foldl_read_eq (fun x => x.get code []) (phenosStep C target) post s
        (fun d hd s2 => phenosStep_get_ne C target s2 d code (hpost d hd))
    have frame_mid : ∀ s : Dict (List String),
        (List.foldl (phenosStep C target) s mid).get code [] = s.get code [] :=
      fun s => foldl_read_eq (fun x => x.get code []) (phenosStep C target) mid s
        (fun d hd s2 => phenosStep_get_ne C target s2 d code (hmid d hd))
    have frame_pre : ∀ s : Dict (List String),
        (List.foldl (phenosStep C target) s pre).get code [] = s.get code [] :=
      fun s => foldl_read_eq (fun x => x.get code []) (phenosStep C target) pre s
        (fun d hd s2 => phenosStep_get_ne C target s2 d code (hpre d hd))
    rw [frame_post, phenosStep_get_code C target _ d2 code h2 hC,
      frame_mid, phenosStep_get_code C target _ d1 code h1 hC,
      frame_pre, dict_get_empty]
    simp
  · unfold parse_prevalence
    rw [List.foldl_append, List.foldl_cons, List.foldl_append, List.foldl_cons]
    have frame_post : ∀ s : Dict (List String),
        (List.foldl (prevStep C) s post).get code [] = s.get code [] :=
      fun s => foldl_read_eq (fun x => x.get code []) (prevStep C) post s
        (fun d hd s2 => prevStep_get_ne C s2 d code (hpost d hd))
    have frame_mid : ∀ s : Dict (List String),
        (List.foldl (prevStep C) s mid).get code [] = s.get code [] :=
      fun s => foldl_read_eq (fun x => x.get code []) (prevStep C) mid s
        (fun d hd s2 => prevStep_get_ne C s2 d code (hmid d hd))
    have frame_pre : ∀ s : Dict (List String),
        (List.foldl (prevStep C) s pre).get code [] = s.get code [] :=
      fun s => foldl_read_eq (fun x => x.get code []) (prevStep C) pre s
        (fun d hd s2 => prevStep_get_ne C s2 d code (hpre d hd))
    rw [frame_post, prevStep_get_code C _ d2 code h2 hC,
      frame_mid, prevStep_get_code C _ d1 code h1 hC,
      frame_pre, dict_get_empty]
    simp
  · unfold parse_omim
    rw [List.foldl_append, List.foldl_cons, List.foldl_append, List.foldl_cons]
    have frame_post : ∀ s : Dict (List String),
        (List.foldl (omimStep C) s post).get code [] = s.get code [] :=
      fun s => foldl_read_eq (fun x => x.get code []) (omimStep C) post s
        (fun d hd s2 => omimStep_get_ne C s2 d code (hpost d hd))
    have frame_mid : ∀ s : Dict (List String),
        (List.foldl (omimStep C) s mid).get code [] = s.get code [] :=
      fun s => foldl_read_eq (fun x => x.get code []) (omimStep C) mid s
        (fun d hd s2 => omimStep_get_ne C s2 d code (hmid d hd))
    have frame_pre : ∀ s : Dict (List String),
        (List.foldl (omimStep C) s pre).get code [] = s.get code [] :=
      fun s => foldl_read_eq (fun x => x.get code []) (omimStep C) pre s
        (fun d hd s2 => omimStep_get_ne C s2 d code (hpre d hd))
    rw [frame_post, omimStep_get_code C _ d2 code h2 hC,
      frame_mid, omimStep_get_code C _ d1 code h1 hC,
      frame_pre, dict_get_empty]
    simp

/-- Witness for C9: the later duplicate having no summary blocks overwrites
    the non-empty first definition with the empty string, and the OMIM
    references of both duplicates are concatenated in document order. -/
theorem duplicate_code_merge_semantics_witness :
    (parse_definitions ([] ++ exDup1 :: ([exOtherDisorder] ++ exDup2 :: [])) ["3"]) "3"
        = some ""
    ∧ (parse_omim ([] ++ exDup1 :: ([exOtherDisorder] ++ exDup2 :: [])) ["3"]).get "3" []
        = ["111111", "222222"] := by
  obtain ⟨hdef, hph, hpr, hom⟩ :=
    duplicate_code_merge_semantics [] [exOtherDisorder] [] exDup1 exDup2 "3" ["3"]
      "Very frequent (99-80%)" rfl rfl (by decide) (by decide)
  constructor
  · rw [hdef]; decide
  · rw [hom]; decide

/-- C1: the mergers of update.py and update_datasets.py produce exactly one
    record per code, in the iteration order of the code set; the definition
    field defaults to the empty string and the three multi-valued fields to
    the "; "-join of the sequence found in the map, itself empty on an absent
    key. -/
theorem merger_row_count_and_fields (defs : Dict String)
    (phenos prevs omims : Dict (List String)) (C : List String) :
    ((save_combined_tsv_lines defs phenos prevs omims C).length = C.length)
    ∧ ((save_combined_csv_rows defs phenos prevs omims C).length = C.length)
    ∧ (∀ code, defs code = none → defs.get code "" = "")
    ∧ (∀ code s, defs code = some s → defs.get code "" = s)
    ∧ (∀ (m : Dict (List String)) code, m code = none → joinSemicolon (m.get code []) = "")
    ∧ (∀ (m : Dict (List String)) code l, m code = some l →
        joinSemicolon (m.get code []) = joinSemicolon l)
    ∧ ∀ i : Nat, i < C.length →
        ((save_combined_tsv_lines defs phenos prevs omims C).getD i []
          = [C.getD i "", defs.get (C.getD i "") "",
             joinSemicolon (phenos.get (C.getD i "") []),
             joinSemicolon (prevs.get (C.getD i "") []),
             joinSemicolon (omims.get (C.getD i "") [])])
        ∧ ((save_combined_csv_rows defs phenos prevs omims C).getD i
              { orphaCode := "", definition := "", phenotypes := "", prevalence := "", omim := "" }
          = { orphaCode := C.getD i "", definition := defs.get (C.getD i "") "",
              phenotypes := joinSemicolon (phenos.get (C.getD i "") []),
              prevalence := joinSemicolon (prevs.get (C.getD i "") []),
              omim := joinSemicolon (omims.get (C.getD i "") []) }) := by
  refine ⟨?_, ?_, ?_, ?_, ?_, ?_, ?_⟩
  · simp [save_combined_tsv_lines]
  · simp [save_combined_csv_rows]
  · intro code h
    simp [Dict.get, h]
  · intro code s h
    simp [Dict.get, h]
  · intro m code h
    simp [Dict.get, h, joinSemicolon]
    decide
  · intro m code l h
    simp [Dict.get, h]
  · intro i hi
    constructor
    · exact getD_map_of_lt _ C i hi "" []
    · exact getD_map_of_lt _ C i hi ""
        ({ orphaCode := "", definition := "", phenotypes := "", prevalence := "", omim := "" } : MergedRow)

/-- Witness for C1 at the end-to-end example of the specification: code set
    of one code, definition and prevalence maps empty, phenotype and OMIM
    maps populated. -/
theorem merger_row_count_and_fields_witness :
    (save_combined_tsv_lines exDefsDict exPhenosDict exPrevsDict exOmimsDict exCodeSet).getD 0 []
        = ["166024", "", "Seizure (HP:0001250)", "", "607596"]
    ∧ (save_combined_tsv_lines exDefsDict exPhenosDict exPrevsDict exOmimsDict exCodeSet).length
        = 1 := by
  obtain ⟨hlen, _, _, _, _, _, hrow⟩ :=
    merger_row_count_and_fields exDefsDict exPhenosDict exPrevsDict exOmimsDict exCodeSet
  constructor
  · rw [(hrow 0 (by decide)).1]
    decide
  · exact hlen.trans (by decide)

end CnvData
